import Mathlib

/-!
Shallow embedding of the market-watcher trading core.

Numbers: JavaScript numeric values are modelled as `ℚ` (every rational is
finite, so `Number.isFinite` checks are noted where they occur in the
source).  Nullable numeric columns are `Option ℚ`.  JavaScript truthiness
on a number (`x ? a : b`, `x || d`, `!x`) treats `0` (and `NaN`, which has
no `ℚ` counterpart) as falsy; the helpers below encode that.

Sources embedded here:
- `src/supabase/functions/signal-scanner/index.ts` : `calculateBB`,
  `calculateVWAP`, the signal-detection block;
- `src/unnamed/part_001` (auto-invest edge function) :
  `isWithinTradingHours`, `calculatePositionSize`, the
  `update-trailing-stops` and `execute-pending-signals` actions.
-/

namespace MarketWatcher

/-- JS `x || d` for a number `x`: `0` is falsy and falls back to `d`. -/
def jsOr (x d : ℚ) : ℚ := if x = 0 then d else x

/-- JS `x || d` for a nullable number `x`: `null` and `0` fall back to `d`. -/
def jsOrOpt (x : Option ℚ) (d : ℚ) : ℚ :=
  match x with
  | none => d
  | some v => if v = 0 then d else v

/-- JS truthiness filter on a nullable number: keeps the value exactly when
it is non-null and nonzero (`x ? f(x) : null` is `(jsTruthy x).map f`). -/
def jsTruthy (x : Option ℚ) : Option ℚ :=
  match x with
  | none => none
  | some v => if v = 0 then none else some v

/-- JS `Math.max(lo, Math.min(hi, x))`. -/
def clampQ (lo hi x : ℚ) : ℚ := max lo (min hi x)

/-! ### Indicator engine (`signal-scanner/index.ts`, lines 10-37) -/

/-- Result object of `calculateBB`. -/
structure BBands where
  upper : ℚ
  middle : ℚ
  lower : ℚ
deriving DecidableEq, Repr

/-- Embedding of `calculateBB(prices, period, stdDev)`.  `Math.sqrt` is a
library call on floats with no exact `ℚ` counterpart, so it is abstracted
as the parameter `sqrt`; everything else follows the source line by line.
`prices.slice(-period)` is the last `period` entries (the guard ensures
`period ≤ prices.length`; the model takes `1 ≤ period`, matching every
caller, where JS `slice(-0)` would differ). -/
def calculateBB (sqrt : ℚ → ℚ) (prices : List ℚ) (period : ℕ) (stdDev : ℚ) :
    Option BBands :=
  if prices.length < period then none
  else
    let slice := prices.drop (prices.length - period)
    let mean := slice.foldl (· + ·) 0 / (period : ℚ)
    let variance := slice.foldl (fun sum p => sum + (p - mean) ^ 2) 0 / (period : ℚ)
    let std := sqrt variance
    some { upper := mean + std * stdDev, middle := mean, lower := mean - std * stdDev }

/-- Bar record as consumed by `calculateVWAP` (its parameter type lists
exactly these fields). -/
structure Bar where
  close : ℚ
  high : ℚ
  low : ℚ
  volume : ℚ
deriving DecidableEq, Repr

/-- Typical price `(high + low + close) / 3` of a bar. -/
def typicalPrice (b : Bar) : ℚ := (b.high + b.low + b.close) / 3

/-- Embedding of `calculateVWAP(bars)`: accumulate
`(cumulativeTPV, cumulativeVolume)` over the bars in order, then return
the quotient when the cumulative volume is positive and `0` otherwise. -/
def calculateVWAP (bars : List Bar) : ℚ :=
  let acc := bars.foldl
    (fun (a : ℚ × ℚ) bar => (a.1 + typicalPrice bar * bar.volume, a.2 + bar.volume))
    (0, 0)
  if 0 < acc.2 then acc.1 / acc.2 else 0

/-- Embedding of the signal-detection block (`signal-scanner/index.ts`,
lines 121-150): each crossing test appends its signal name.  The VWAP
tests run under JS `if (vwap)`, i.e. only when the vwap value is non-null
and nonzero. -/
def detectedSignals (previousPrice currentPrice bbUpper bbLower : ℚ)
    (vwap : Option ℚ) : List String :=
  (if previousPrice ≤ bbUpper ∧ currentPrice > bbUpper then ["bb_breakout_up"] else [])
  ++ (if previousPrice ≥ bbLower ∧ currentPrice < bbLower then ["bb_breakout_down"] else [])
  ++ (if previousPrice < bbLower ∧ currentPrice > bbLower then ["bb_mean_reversion_up"] else [])
  ++ (if previousPrice > bbUpper ∧ currentPrice < bbUpper then ["bb_mean_reversion_down"] else [])
  ++ (match jsTruthy vwap with
      | none => []
      | some v =>
        (if previousPrice ≤ v ∧ currentPrice > v then ["vwap_cross_up"] else [])
        ++ (if previousPrice ≥ v ∧ currentPrice < v then ["vwap_cross_down"] else []))

/-! ### Auto-invest data model (`src/unnamed/part_001`, lines 25-69) -/

/-- Row of `trading_settings` (fields the embedded passes read).  Trading
hours are "HH:MM:SS" strings in the source, compared lexicographically;
zero-padded time strings compare lexicographically exactly as their
seconds-since-midnight values, so they are modelled as `ℕ`. -/
structure TradingSettings where
  user_id : String
  max_daily_trades : ℕ
  max_daily_loss : ℚ
  max_position_size : ℚ
  trading_hours_start : ℕ
  trading_hours_end : ℕ
  preferred_broker : Option String

/-- Row of `signal_rules` (fields the execution path reads). -/
structure SignalRule where
  id : ℕ
  option_strategy : String
  trailing_stop_percent : Option ℚ
  stop_loss_percent : Option ℚ
  take_profit_percent : Option ℚ
  position_size_percent : ℚ
  max_position_value : ℚ
deriving DecidableEq, Repr

/-- Row of `signals` joined with its (non-null, `signal_rules!inner`)
rule, as fetched by `execute-pending-signals`. -/
structure Signal where
  id : ℕ
  symbol : String
  signal_type : String
  price_at_signal : ℚ
  executed : Bool
  rule : SignalRule
deriving DecidableEq, Repr

/-- Row of `positions` as read and mutated by `update-trailing-stops`
(interface `Position`, lines 36-48 of the source). -/
structure Position where
  symbol : String
  quantity : ℚ
  avg_cost : ℚ
  current_price : Option ℚ
  unrealized_pnl : Option ℚ
  trailing_stop_price : Option ℚ
  stop_loss_price : Option ℚ
  take_profit_price : Option ℚ
  is_open : Bool
deriving DecidableEq, Repr

/-- Row inserted into `orders` by `execute-pending-signals` (the fields
the model tracks). -/
structure Order where
  signal_id : ℕ
  symbol : String
  side : String
  quantity : ℤ
  limit_price : ℚ
  strategy : String
  trailing_stop_percent : Option ℚ
  stop_loss_price : Option ℚ
  take_profit_price : Option ℚ
deriving DecidableEq, Repr

/-- Row inserted into `positions` by `execute-pending-signals`. -/
structure PositionRec where
  symbol : String
  quantity : ℤ
  avg_cost : ℚ
  current_price : ℚ
  trailing_stop_price : Option ℚ
  stop_loss_price : Option ℚ
  take_profit_price : Option ℚ
  is_open : Bool
deriving DecidableEq, Repr

/-! ### Helper functions (`src/unnamed/part_001`, lines 71-99) -/

/-- Embedding of `isWithinTradingHours(start, end)`.  The ambient clock
read (`new Date()` rendered in America/New_York) is the explicit
parameter `now`; the two string comparisons `currentTime >= start` and
`currentTime <= end` become the corresponding `ℕ` comparisons. -/
def isWithinTradingHours (now startTime endTime : ℕ) : Bool :=
  decide (startTime ≤ now) && decide (now ≤ endTime)

/-- Embedding of `calculatePositionSize(settings, rule, currentPrice,
accountValue = 100000)`.  `currentPrice <= 0 || !Number.isFinite(...)`
reduces to `currentPrice ≤ 0` over `ℚ` (every rational is finite), and
likewise for `accountValue`; `Math.floor` is `Int.floor`. -/
def calculatePositionSize (settings : TradingSettings) (rule : SignalRule)
    (currentPrice : ℚ) (accountValue : ℚ := 100000) : ℤ :=
  if currentPrice ≤ 0 then 0
  else if accountValue ≤ 0 then 0
  else
    let maxFromSettings := max 0 (min 1000000 (jsOr settings.max_position_size 10000))
    let maxFromRule := max 0 (min 1000000 (jsOr rule.max_position_value 10000))
    let positionSizePercent := max 0.1 (min 100 (jsOr rule.position_size_percent 5))
    let percentageSize := accountValue * positionSizePercent / 100
    let maxValue := min maxFromSettings (min maxFromRule percentageSize)
    let quantity := ⌊maxValue / currentPrice⌋
    max 0 (min 1000000 quantity)

/-! ### Position monitor: `update-trailing-stops` (lines 144-185) -/

/-- Validated trailing percent
`Math.max(0.1, Math.min(50, position.orders?.trailing_stop_percent || 5))`. -/
def trailingPercentOf (orderPercent : Option ℚ) : ℚ :=
  max 0.1 (min 50 (jsOrOpt orderPercent 5))

/-- Candidate trailing-stop
`currentPrice * (1 - trailingPercent / 100)`. -/
def candidateStop (currentPrice : ℚ) (orderPercent : Option ℚ) : ℚ :=
  currentPrice * (1 - trailingPercentOf orderPercent / 100)

/-- Update condition
`!position.trailing_stop_price || newTrailingStop > position.trailing_stop_price`:
a null or zero stored stop is falsy, otherwise the candidate must be
strictly greater. -/
def stopUpdates (p : Position) (currentPrice : ℚ) (orderPercent : Option ℚ) : Bool :=
  match p.trailing_stop_price with
  | none => true
  | some old => decide (old = 0 ∨ candidateStop currentPrice orderPercent > old)

/-- One `update-trailing-stops` iteration for one open position: when the
update condition holds, the row's `current_price`, `unrealized_pnl` and
`trailing_stop_price` are written together; otherwise the row is
untouched.  The market price (mocked via `Math.random` in the source) is
the explicit parameter `currentPrice`; `orderPercent` is the joined
order's `trailing_stop_percent`.  The stop-loss / take-profit / trailing
hit checks that follow in the source only log, so they do not appear in
the state transition. -/
def updateTrailingStop (p : Position) (currentPrice : ℚ) (orderPercent : Option ℚ) :
    Position :=
  if stopUpdates p currentPrice orderPercent then
    { p with
      current_price := some currentPrice
      unrealized_pnl := some ((currentPrice - p.avg_cost) * p.quantity)
      trailing_stop_price := some (candidateStop currentPrice orderPercent) }
  else p

/-- A sequence of `update-trailing-stops` passes over one position, the
pass at step `i` observing market price `prices[i]`. -/
def runTrailingStops (orderPercent : Option ℚ) (p : Position) (prices : List ℚ) :
    Position :=
  prices.foldl (fun q price => updateTrailingStop q price orderPercent) p

/-! ### Execution engine: `execute-pending-signals` (lines 196-371) -/

/-- Today's filled order as read for the daily P&L computation. -/
structure FilledOrder where
  filled_price : Option ℚ
  quantity : Option ℚ
  side : String

/-- Daily P&L fold (lines 243-248): a filled order contributes only when
`order.filled_price && order.quantity` is truthy, negatively for buys and
positively otherwise. -/
def dailyPnL (orders : List FilledOrder) : ℚ :=
  orders.foldl
    (fun acc o =>
      match jsTruthy o.filled_price, jsTruthy o.quantity with
      | some fp, some q => acc + (if o.side = "buy" then -(fp * q) else fp * q)
      | _, _ => acc)
    0

/-- Outcome of processing one pending signal: skipped with a recorded
reason, order insert failed (logged and `continue`, nothing recorded), or
executed with the inserted order and position rows. -/
inductive SignalStep where
  | skip (reason : String)
  | insertFailed
  | exec (order : Order) (pos : PositionRec)
deriving DecidableEq, Repr

/-- Order side (lines 283-285): buy exactly for the three upward signal
types, sell otherwise. -/
def orderSide (signal_type : String) : String :=
  if signal_type ∈ ["bb_breakout_up", "bb_mean_reversion_up", "vwap_cross_up"]
  then "buy" else "sell"

/-- The `(side === 'buy' ? 1 : -1)` sign factor. -/
def sideSign (side : String) : ℚ := if side = "buy" then 1 else -1

/-- Stop-loss price (lines 288-293): the rule's percent, when truthy, is
clamped to [0.1, 50] and applied as `price * (1 - sign * percent / 100)`. -/
def stopLossPriceFor (price : ℚ) (side : String) (rulePercent : Option ℚ) : Option ℚ :=
  ((jsTruthy rulePercent).map (clampQ 0.1 50)).map
    (fun p => price * (1 - sideSign side * p / 100))

/-- Take-profit price (lines 289-296): the rule's percent, when truthy,
is clamped to [0.1, 100] and applied as `price * (1 + sign * percent / 100)`. -/
def takeProfitPriceFor (price : ℚ) (side : String) (rulePercent : Option ℚ) : Option ℚ :=
  ((jsTruthy rulePercent).map (clampQ 0.1 100)).map
    (fun p => price * (1 + sideSign side * p / 100))

/-- The `orders` row inserted at lines 301-319 for an approved signal. -/
def orderFor (sig : Signal) (quantity : ℤ) : Order :=
  { signal_id := sig.id
    symbol := sig.symbol
    side := orderSide sig.signal_type
    quantity := quantity
    limit_price := sig.price_at_signal
    strategy := sig.rule.option_strategy
    trailing_stop_percent := sig.rule.trailing_stop_percent
    stop_loss_price :=
      stopLossPriceFor sig.price_at_signal (orderSide sig.signal_type)
        sig.rule.stop_loss_percent
    take_profit_price :=
      takeProfitPriceFor sig.price_at_signal (orderSide sig.signal_type)
        sig.rule.take_profit_percent }

/-- The `positions` row inserted at lines 333-349 for an approved signal
(quantity signed by side; the raw, unclamped `trailing_stop_percent` is
applied when truthy). -/
def positionRecFor (sig : Signal) (quantity : ℤ) : PositionRec :=
  { symbol := sig.symbol
    quantity := if orderSide sig.signal_type = "buy" then quantity else -quantity
    avg_cost := sig.price_at_signal
    current_price := sig.price_at_signal
    trailing_stop_price := (jsTruthy sig.rule.trailing_stop_percent).map
      (fun p => sig.price_at_signal * (1 - p / 100))
    stop_loss_price :=
      stopLossPriceFor sig.price_at_signal (orderSide sig.signal_type)
        sig.rule.stop_loss_percent
    take_profit_price :=
      takeProfitPriceFor sig.price_at_signal (orderSide sig.signal_type)
        sig.rule.take_profit_percent
    is_open := true }

/-- The per-signal body of the `execute-pending-signals` loop (lines
266-360) for one signal, with the order-insert outcome abstracted as
`insertOk` (the store collaborator may reject the insert).  Price
validation (`<= 0 || !Number.isFinite`) reduces to `≤ 0` over `ℚ`. -/
def processSignal (settings : TradingSettings) (sig : Signal) (insertOk : Bool) :
    SignalStep :=
  if sig.price_at_signal ≤ 0 then .skip "Invalid price"
  else if calculatePositionSize settings sig.rule sig.price_at_signal ≤ 0 then
    .skip "Position size too small"
  else if insertOk then
    .exec (orderFor sig (calculatePositionSize settings sig.rule sig.price_at_signal))
      (positionRecFor sig (calculatePositionSize settings sig.rule sig.price_at_signal))
  else .insertFailed

/-- Skip record pushed to the `skipped` array: user-level entries carry
`user_id`, signal-level entries carry `signal_id`. -/
inductive SkipRec where
  | user (user_id : String) (reason : String)
  | signal (signal_id : ℕ) (reason : String)
deriving DecidableEq, Repr

/-- Result of one `execute-pending-signals` pass over one user:
`signals` is the signal table after the pass (executed flags updated),
and `orders` / `positions` / `skipped` collect the rows and records the
pass created, in processing order. -/
structure PassResult where
  signals : List Signal
  orders : List Order
  positions : List PositionRec
  skipped : List SkipRec
deriving DecidableEq, Repr

/-- One signal's contribution to the pass result.  A row already marked
executed passes through untouched (the source's fetch filters it out with
`eq('executed', false)`, which is the same row-by-row behaviour); on a
successful insert the signal is marked `executed := true` (lines
326-330); on a failed insert nothing for that signal changes and the
loop continues. -/
def stepSignal (settings : TradingSettings) (insertOk : ℕ → Bool) (sig : Signal)
    (r : PassResult) : PassResult :=
  if sig.executed then { r with signals := sig :: r.signals }
  else
    match processSignal settings sig (insertOk sig.id) with
    | .skip reason =>
      { r with
        signals := sig :: r.signals
        skipped := .signal sig.id reason :: r.skipped }
    | .insertFailed => { r with signals := sig :: r.signals }
    | .exec o p =>
      { signals := { sig with executed := true } :: r.signals
        orders := o :: r.orders
        positions := p :: r.positions
        skipped := r.skipped }

/-- The signal loop of `execute-pending-signals` over the user's signal
table, collecting rows and records in processing order. -/
def runSignals (settings : TradingSettings) (insertOk : ℕ → Bool)
    (sigs : List Signal) : PassResult :=
  sigs.foldr (stepSignal settings insertOk) ⟨[], [], [], []⟩

/-- Per-pass environment of one user: the clock reading, the result of
the today's-order-count query, the rows of the today's-filled-orders
query, and the order-insert outcome per signal id. -/
structure Env where
  now : ℕ
  todaysTrades : ℕ
  todaysFilledOrders : List FilledOrder
  insertOk : ℕ → Bool

/-- The per-user body of `execute-pending-signals` (lines 214-361): the
three risk gates short-circuit in source order (trading hours, daily
trade count, daily loss), each pushing a user-level skip record; only
then does the signal loop run.  `todaysTrades || 0` is covered by the
count being `ℕ`.  Users appear here only with `auto_trade_enabled = true`
(the fetch filters on it). -/
def executePendingSignalsUser (settings : TradingSettings) (env : Env)
    (signals : List Signal) : PassResult :=
  if ¬ isWithinTradingHours env.now settings.trading_hours_start
      settings.trading_hours_end then
    ⟨signals, [], [], [.user settings.user_id "Outside trading hours"]⟩
  else
    let maxDailyTrades : ℕ :=
      max 1 (min 1000 (if settings.max_daily_trades = 0 then 10
                       else settings.max_daily_trades))
    if env.todaysTrades ≥ maxDailyTrades then
      ⟨signals, [], [], [.user settings.user_id "Max daily trades reached"]⟩
    else
      let maxDailyLoss := max 0 (min 1000000 (jsOr settings.max_daily_loss 1000))
      if dailyPnL env.todaysFilledOrders ≤ -maxDailyLoss then
        ⟨signals, [], [], [.user settings.user_id "Max daily loss reached"]⟩
      else
        runSignals settings env.insertOk signals

/-! ### Claim-side windows for the Bollinger computation (stated from the
spec's words, to compare with `calculateBB`) -/

/-- Last `period` entries of the price sequence. -/
def lastWindow (prices : List ℚ) (period : ℕ) : List ℚ :=
  prices.drop (prices.length - period)

/-- Mean of the last `period` prices. -/
def windowMean (prices : List ℚ) (period : ℕ) : ℚ :=
  (lastWindow prices period).sum / (period : ℚ)

/-- Population variance of the last `period` prices (divide by `period`,
not `period - 1`). -/
def windowPopVariance (prices : List ℚ) (period : ℕ) : ℚ :=
  ((lastWindow prices period).map
    (fun p => (p - windowMean prices period) ^ 2)).sum / (period : ℚ)

/-- Number of orders carrying `signal_id = s`. -/
def ordCount (s : ℕ) (orders : List Order) : ℕ :=
  orders.countP (fun o => o.signal_id == s)

/-- Number of still-unconsumed signal rows with id `s`. -/
def pendCount (s : ℕ) (sigs : List Signal) : ℕ :=
  sigs.countP (fun x => x.id == s && !x.executed)

/-- Number of signal rows with id `s`. -/
def idCount (s : ℕ) (sigs : List Signal) : ℕ :=
  sigs.countP (fun x => x.id == s)

/-- Modelled from the claim`s words (C4): quantity =
floor(min(settings.maxPositionSize, rule.maxPositionValue, accountValue x
positionSizePercent/100) / price), with positionSizePercent clamped to
[0.1, 100] and maxPositionValue clamped to [100, 1000000].  Stated for
refinement comparison against `calculatePositionSize`. -/
def claimPositionSize (settings : TradingSettings) (rule : SignalRule)
    (price accountValue : ℚ) : ℤ :=
  ⌊min settings.max_position_size
      (min (clampQ 100 1000000 rule.max_position_value)
        (accountValue * clampQ 0.1 100 rule.position_size_percent / 100)) / price⌋

/-- The position-size formula the code actually implements: the JS falsy
default 10000 and the clamp to [0, 1000000] (not [100, 1000000]) on both
value bounds, the falsy default 5 on the percent, and a final clamp of
the floored quantity to [0, 1000000]. -/
def codePositionSize (settings : TradingSettings) (rule : SignalRule)
    (price accountValue : ℚ) : ℤ :=
  if price ≤ 0 ∨ accountValue ≤ 0 then 0
  else
    max 0 (min 1000000
      ⌊min (clampQ 0 1000000 (jsOr settings.max_position_size 10000))
          (min (clampQ 0 1000000 (jsOr rule.max_position_value 10000))
            (accountValue * clampQ 0.1 100 (jsOr rule.position_size_percent 5) / 100))
        / price⌋)

/-! ### Helper lemmas -/

lemma foldl_add_eq_sum (l : List ℚ) : ∀ a : ℚ, l.foldl (· + ·) a = a + l.sum := by
  induction l with
  | nil => simp
  | cons x xs ih => intro a; simp [List.foldl_cons, ih, add_assoc]

lemma foldl_add_map_eq_sum (f : ℚ → ℚ) (l : List ℚ) :
    ∀ a : ℚ, l.foldl (fun s p => s + f p) a = a + (l.map f).sum := by
  induction l with
  | nil => simp
  | cons x xs ih => intro a; simp [List.foldl_cons, ih, add_assoc]

lemma vwap_foldl_eq (bars : List Bar) :
    ∀ x y : ℚ,
      bars.foldl
        (fun (a : ℚ × ℚ) bar => (a.1 + typicalPrice bar * bar.volume, a.2 + bar.volume))
        (x, y)
      = (x + (bars.map (fun b => typicalPrice b * b.volume)).sum,
         y + (bars.map (fun b => b.volume)).sum) := by
  induction bars with
  | nil => simp
  | cons b bs ih => intro x y; simp [List.foldl_cons, ih, add_assoc]

/-! ### Claim C6 -/

/-- C6: `bollingerBands` returns absent exactly when the sequence is
shorter than `period`; otherwise `middle` is the mean of the last
`period` prices, the variance used is the population variance, and
`upper`/`lower` are `middle ± stdDevMultiplier * sqrt(variance)`; a
constant sequence of twenty 100s with period 20 and multiplier 2 yields
`upper = middle = lower = 100` (for any square root with `sqrt 0 = 0`). -/
theorem bollingerBands_spec :
    (∀ (sqrt : ℚ → ℚ) (prices : List ℚ) (period : ℕ) (m : ℚ),
      calculateBB sqrt prices period m = none ↔ prices.length < period)
    ∧ (∀ (sqrt : ℚ → ℚ) (prices : List ℚ) (period : ℕ) (m : ℚ) (bb : BBands),
        calculateBB sqrt prices period m = some bb →
          bb.middle = windowMean prices period
          ∧ bb.upper = bb.middle + sqrt (windowPopVariance prices period) * m
          ∧ bb.lower = bb.middle - sqrt (windowPopVariance prices period) * m)
    ∧ (∀ sqrt : ℚ → ℚ, sqrt 0 = 0 →
        calculateBB sqrt (List.replicate 20 100) 20 2 = some ⟨100, 100, 100⟩) := by
  refine ⟨?_, ?_, ?_⟩
  · intro sqrt prices period m
    unfold calculateBB
    split <;> simp_all
  · intro sqrt prices period m bb h
    unfold calculateBB at h
    split at h
    · exact absurd h (by simp)
    · simp only [Option.some.injEq] at h
      subst h
      refine ⟨?_, ?_, ?_⟩ <;>
        simp [windowMean, windowPopVariance, lastWindow, foldl_add_eq_sum,
          foldl_add_map_eq_sum]
  · intro sqrt hsqrt
    have hmean : windowMean (List.replicate 20 100) 20 = 100 := by
      norm_num [windowMean, lastWindow, List.sum_replicate]
    have hvar : windowPopVariance (List.replicate 20 100) 20 = 0 := by
      norm_num [windowPopVariance, lastWindow, hmean, List.map_replicate,
        List.sum_replicate]
    unfold calculateBB
    rw [if_neg (by norm_num)]
    have h1 : (List.replicate (20:ℕ) (100:ℚ)).drop ((List.replicate (20:ℕ) (100:ℚ)).length - 20)
        = List.replicate 20 100 := by simp
    simp only [h1]
    rw [show (List.replicate (20:ℕ) (100:ℚ)).foldl (· + ·) 0 = 2000 by
      norm_num [foldl_add_eq_sum, List.sum_replicate]]
    norm_num [foldl_add_map_eq_sum, List.map_replicate, List.sum_replicate, hsqrt]

/-- C6 witness: the theorem instantiated at the identity square root and
the constant sequence. -/
theorem bollingerBands_spec_witness :
    calculateBB id (List.replicate 20 100) 20 2 = some ⟨100, 100, 100⟩ :=
  bollingerBands_spec.2.2 id rfl

/-! ### Claim C8 -/

/-- C8: for bar sequences with nonnegative volumes, `vwap` equals the
cumulative sum of `typicalPrice * volume` divided by the cumulative
volume (with the quotient read as 0 when the cumulative volume is 0,
which is also stated separately); a single bar with positive volume gives
that bar's typical price. -/
theorem vwap_spec :
    (∀ bars : List Bar, (∀ b ∈ bars, 0 ≤ b.volume) →
      calculateVWAP bars
        = (bars.map (fun b => typicalPrice b * b.volume)).sum
            / (bars.map (fun b => b.volume)).sum
      ∧ ((bars.map (fun b => b.volume)).sum = 0 → calculateVWAP bars = 0))
    ∧ (∀ b : Bar, 0 < b.volume → calculateVWAP [b] = typicalPrice b) := by
  constructor
  · intro bars hnn
    have hfold := vwap_foldl_eq bars 0 0
    have hv : 0 ≤ (bars.map (fun b => b.volume)).sum := by
      apply List.sum_nonneg
      intro x hx
      rcases List.mem_map.1 hx with ⟨b, hb, rfl⟩
      exact hnn b hb
    constructor
    · unfold calculateVWAP
      rw [hfold]
      rcases lt_or_eq_of_le hv with hpos | hzero
      · rw [if_pos (by simpa using hpos)]; simp
      · rw [if_neg (by simp [← hzero])]
        simp [← hzero]
    · intro hzero
      unfold calculateVWAP
      rw [hfold, if_neg (by simp [hzero])]
  · intro b hb
    unfold calculateVWAP
    rw [vwap_foldl_eq [b] 0 0]
    simp only [List.map_cons, List.map_nil, List.sum_cons, List.sum_nil, zero_add,
      add_zero]
    rw [if_pos (by simpa using hb)]
    exact mul_div_cancel_right₀ _ (ne_of_gt hb)

/-- C8 witness: a concrete single bar with positive volume. -/
theorem vwap_spec_witness :
    calculateVWAP [⟨101, 103, 99, 5000⟩] = typicalPrice ⟨101, 103, 99, 5000⟩ :=
  vwap_spec.2 ⟨101, 103, 99, 5000⟩ (by norm_num)

/-! ### Claim C7 -/

/-- C7: each Bollinger signal is emitted exactly under its stated
closed/open boundary condition, and at the band boundary the asymmetry is
one-sided: for any ε > 0, previous = upper with current = upper + ε fires
`bb_breakout_up` exactly once, while previous = upper + ε with
current = upper fires no breakout-up. -/
lemma mem_ite_singleton (c : Prop) [Decidable c] (s name : String) :
    (name ∈ if c then [s] else []) ↔ c ∧ name = s := by
  split <;> simp_all

lemma count_ite_singleton (c : Prop) [Decidable c] (s name : String) :
    (if c then [s] else []).count name = if c ∧ name = s then 1 else 0 := by
  by_cases hc : c <;> by_cases hn : name = s <;>
    simp_all [List.count_singleton, List.count_cons]

lemma mem_detectedSignals_iff (prev curr u l : ℚ) (v : Option ℚ) (name : String) :
    name ∈ detectedSignals prev curr u l v ↔
      ((prev ≤ u ∧ curr > u) ∧ name = "bb_breakout_up")
      ∨ ((prev ≥ l ∧ curr < l) ∧ name = "bb_breakout_down")
      ∨ ((prev < l ∧ curr > l) ∧ name = "bb_mean_reversion_up")
      ∨ ((prev > u ∧ curr < u) ∧ name = "bb_mean_reversion_down")
      ∨ (∃ w, jsTruthy v = some w ∧
          (((prev ≤ w ∧ curr > w) ∧ name = "vwap_cross_up")
            ∨ ((prev ≥ w ∧ curr < w) ∧ name = "vwap_cross_down"))) := by
  unfold detectedSignals
  rcases hv : jsTruthy v with _ | w <;>
    simp [hv, List.mem_append, mem_ite_singleton]

theorem signalDetection_boundaries :
    (∀ prev curr u l : ℚ, ∀ v : Option ℚ,
      ("bb_breakout_up" ∈ detectedSignals prev curr u l v ↔ prev ≤ u ∧ curr > u)
      ∧ ("bb_breakout_down" ∈ detectedSignals prev curr u l v ↔ prev ≥ l ∧ curr < l)
      ∧ ("bb_mean_reversion_up" ∈ detectedSignals prev curr u l v ↔ prev < l ∧ curr > l)
      ∧ ("bb_mean_reversion_down" ∈ detectedSignals prev curr u l v ↔ prev > u ∧ curr < u))
    ∧ (∀ u l ε : ℚ, ∀ v : Option ℚ, 0 < ε →
        (detectedSignals u (u + ε) u l v).count "bb_breakout_up" = 1)
    ∧ (∀ u l ε : ℚ, ∀ v : Option ℚ, 0 < ε →
        "bb_breakout_up" ∉ detectedSignals (u + ε) u u l v) := by
  refine ⟨?_, ?_, ?_⟩
  · intro prev curr u l v
    refine ⟨?_, ?_, ?_, ?_⟩ <;>
      · rw [mem_detectedSignals_iff]
        simp
  · intro u l ε v hε
    have h : u < u + ε := by linarith
    unfold detectedSignals
    rcases hv : jsTruthy v with _ | w <;>
      simp [hv, List.count_append, count_ite_singleton, h]
  · intro u l ε v hε
    rw [mem_detectedSignals_iff]
    have h : ¬ (u + ε ≤ u) := by linarith
    simp [h]

/-- C7 witness: concrete boundary instance with ε = 1 and upper band 10. -/
theorem signalDetection_boundaries_witness :
    (detectedSignals 10 (10 + 1) 10 0 none).count "bb_breakout_up" = 1
    ∧ "bb_breakout_up" ∉ detectedSignals (10 + 1) 10 10 0 none :=
  ⟨signalDetection_boundaries.2.1 10 0 1 none (by norm_num),
   signalDetection_boundaries.2.2 10 0 1 none (by norm_num)⟩

/-! ### Claims C2 and C10: the position monitor -/

lemma trailingPercentOf_le (orderPercent : Option ℚ) : trailingPercentOf orderPercent ≤ 50 := by
  unfold trailingPercentOf
  have : min 50 (jsOrOpt orderPercent 5) ≤ 50 := min_le_left _ _
  rw [max_le_iff]
  exact ⟨by norm_num, this⟩

lemma candidateStop_pos (price : ℚ) (orderPercent : Option ℚ) (h : 0 < price) :
    0 < candidateStop price orderPercent := by
  unfold candidateStop
  have h50 := trailingPercentOf_le orderPercent
  have : (0:ℚ) < 1 - trailingPercentOf orderPercent / 100 := by linarith
  positivity

lemma updateTrailingStop_step_mono (p : Position) (price : ℚ) (orderPercent : Option ℚ)
    (old : ℚ) (hp : 0 < price) (h : p.trailing_stop_price = some old) :
    ∃ n, (updateTrailingStop p price orderPercent).trailing_stop_price = some n ∧ old ≤ n := by
  unfold updateTrailingStop
  by_cases hc : stopUpdates p price orderPercent
  · refine ⟨candidateStop price orderPercent, by simp [hc], ?_⟩
    unfold stopUpdates at hc
    rw [h] at hc
    rcases of_decide_eq_true hc with h0 | hgt
    · rw [h0]; exact le_of_lt (candidateStop_pos price orderPercent hp)
    · exact le_of_lt hgt
  · exact ⟨old, by simp [hc, h], le_refl old⟩

/-- C2: for a position whose trailing stop is set, any sequence of
update-trailing-stops passes at positive market prices leaves the stop
set and never decreases it; the stop is replaced exactly when it is unset
or the candidate `currentPrice * (1 - trailingPercent/100)` exceeds it;
and concretely (trailing percent 5) a pass at price 110 sets the stop of
a fresh long position to 104.5 and a later pass at price 105 leaves it at
104.5. -/
theorem trailingStop_ratchet :
    (∀ (orderPercent : Option ℚ) (p : Position) (prices : List ℚ) (old : ℚ),
      (∀ q ∈ prices, 0 < q) → p.trailing_stop_price = some old →
      ∃ n, (runTrailingStops orderPercent p prices).trailing_stop_price = some n ∧ old ≤ n)
    ∧ (∀ (orderPercent : Option ℚ) (p : Position) (price : ℚ), 0 < price →
        (stopUpdates p price orderPercent = true ↔
          p.trailing_stop_price = none
          ∨ ∃ o, p.trailing_stop_price = some o ∧ o < candidateStop price orderPercent))
    ∧ (runTrailingStops (some 5) ⟨"AAPL", 10, 100, none, none, none, none, none, true⟩
        [110, 105]).trailing_stop_price = some 104.5 := by
  refine ⟨?_, ?_, ?_⟩
  · intro orderPercent p prices
    induction prices generalizing p with
    | nil => intro old _ h; exact ⟨old, h, le_refl old⟩
    | cons price rest ih =>
      intro old hpos h
      rcases updateTrailingStop_step_mono p price orderPercent old
          (hpos price (List.mem_cons_self _ _)) h with ⟨n, hn, hon⟩
      rcases ih (updateTrailingStop p price orderPercent) n
          (fun q hq => hpos q (List.mem_cons_of_mem _ hq)) hn with ⟨m, hm, hnm⟩
      exact ⟨m, hm, le_trans hon hnm⟩
  · intro orderPercent p price hp
    unfold stopUpdates
    rcases htsp : p.trailing_stop_price with _ | old
    · simp
    · simp only [decide_eq_true_eq, Option.some.injEq, reduceCtorEq, false_or]
      constructor
      · rintro (h0 | hgt)
        · exact ⟨old, rfl, by rw [h0]; exact candidateStop_pos price orderPercent hp⟩
        · exact ⟨old, rfl, hgt⟩
      · rintro ⟨o, ho, hlt⟩
        cases ho
        exact Or.inr hlt
  · norm_num [runTrailingStops, updateTrailingStop, stopUpdates, candidateStop,
      trailingPercentOf, jsOrOpt]

/-- C2 witness: a single pass at price 110 on a position whose stop is
set at 100 keeps the stop set and does not decrease it. -/
theorem trailingStop_ratchet_witness :
    ∃ n, (runTrailingStops (some 5)
        ⟨"AAPL", 10, 100, none, none, some 100, none, none, true⟩
        [110]).trailing_stop_price = some n ∧ 100 ≤ n :=
  trailingStop_ratchet.1 (some 5)
    ⟨"AAPL", 10, 100, none, none, some 100, none, none, true⟩
    [110] 100 (by norm_num) rfl

/-- C10 counterexample: a pass at price 105 over a long position
(avgCost 100, quantity 10, trailing percent 5) whose stored stop is
104.5 leaves `current_price` and `unrealized_pnl` stale — the claim says
they are refreshed on every pass. -/
theorem monitorRefresh_claim_counterexample :
    (updateTrailingStop ⟨"AAPL", 10, 100, some 100, some 0, some 104.5, none, none, true⟩
        105 (some 5)).current_price ≠ some 105
    ∧ (updateTrailingStop ⟨"AAPL", 10, 100, some 100, some 0, some 104.5, none, none, true⟩
        105 (some 5)).unrealized_pnl ≠ some ((105 - 100) * 10) := by
  norm_num [updateTrailingStop, stopUpdates, candidateStop, trailingPercentOf, jsOrOpt]

/-- C10 amended: the pass refreshes `current_price` and `unrealized_pnl`
(and writes the candidate stop) exactly on the passes where the
trailing-stop update condition holds — the stop is unset, stored as 0, or
the candidate exceeds it; on any other pass the position row is left
entirely unchanged. -/
theorem monitorRefresh_amended :
    ∀ (p : Position) (price : ℚ) (orderPercent : Option ℚ),
      (stopUpdates p price orderPercent = true →
        (updateTrailingStop p price orderPercent).current_price = some price
        ∧ (updateTrailingStop p price orderPercent).unrealized_pnl
            = some ((price - p.avg_cost) * p.quantity)
        ∧ (updateTrailingStop p price orderPercent).trailing_stop_price
            = some (candidateStop price orderPercent))
      ∧ (stopUpdates p price orderPercent = false →
          updateTrailingStop p price orderPercent = p) := by
  intro p price orderPercent
  constructor <;> intro h <;> simp [updateTrailingStop, h]

/-- C10 amended witness: a position with no stop set is refreshed. -/
theorem monitorRefresh_amended_witness :
    (updateTrailingStop ⟨"AAPL", 10, 100, none, none, none, none, none, true⟩
        110 (some 5)).current_price = some 110 :=
  ((monitorRefresh_amended ⟨"AAPL", 10, 100, none, none, none, none, none, true⟩
      110 (some 5)).1 rfl).1

/-! ### Claims C1, C3, C9: the execute-pending-signals pass -/

lemma pendCount_le_idCount (s : ℕ) (sigs : List Signal) :
    pendCount s sigs ≤ idCount s sigs := by
  unfold pendCount idCount
  induction sigs with
  | nil => simp
  | cons sig rest ih =>
    rw [List.countP_cons, List.countP_cons]
    rcases hid : (sig.id == s) <;> rcases hex : sig.executed <;>
      simp [hid, hex] <;> omega

lemma processSignal_exec (settings : TradingSettings) (sig : Signal) (ok : Bool)
    (o : Order) (p : PositionRec) (h : processSignal settings sig ok = .exec o p) :
    o = orderFor sig (calculatePositionSize settings sig.rule sig.price_at_signal)
    ∧ p = positionRecFor sig (calculatePositionSize settings sig.rule sig.price_at_signal)
    ∧ ¬ sig.price_at_signal ≤ 0
    ∧ ¬ calculatePositionSize settings sig.rule sig.price_at_signal ≤ 0
    ∧ ok = true := by
  unfold processSignal at h
  split at h
  · exact absurd h (by simp)
  · split at h
    · exact absurd h (by simp)
    · split at h
      · cases h
        refine ⟨rfl, rfl, by assumption, by assumption, by assumption⟩
      · exact absurd h (by simp)

lemma processSignal_exec_ids (settings : TradingSettings) (sig : Signal) (ok : Bool)
    (o : Order) (p : PositionRec) (h : processSignal settings sig ok = .exec o p) :
    o.signal_id = sig.id
    ∧ o.quantity = calculatePositionSize settings sig.rule sig.price_at_signal := by
  rcases processSignal_exec settings sig ok o p h with ⟨rfl, -, -⟩
  exact ⟨rfl, rfl⟩

lemma pendCount_cons (s : ℕ) (sig : Signal) (l : List Signal) :
    pendCount s (sig :: l)
      = pendCount s l + (if sig.id == s && !sig.executed then 1 else 0) := by
  unfold pendCount
  rw [List.countP_cons]

lemma ordCount_cons (s : ℕ) (o : Order) (l : List Order) :
    ordCount s (o :: l) = ordCount s l + (if o.signal_id == s then 1 else 0) := by
  unfold ordCount
  rw [List.countP_cons]

lemma runSignals_count_le (settings : TradingSettings) (insertOk : ℕ → Bool) (s : ℕ) :
    ∀ sigs : List Signal,
      ordCount s (runSignals settings insertOk sigs).orders
        + pendCount s (runSignals settings insertOk sigs).signals
      ≤ pendCount s sigs := by
  intro sigs
  induction sigs with
  | nil => simp [runSignals, ordCount, pendCount]
  | cons sig rest ih =>
    have hcons : runSignals settings insertOk (sig :: rest)
        = stepSignal settings insertOk sig (runSignals settings insertOk rest) :=
      List.foldr_cons rest
    rw [hcons]
    set r := runSignals settings insertOk rest with hr
    unfold stepSignal
    by_cases hex : sig.executed = true
    · rw [if_pos hex]
      rw [pendCount_cons, pendCount_cons]
      simp only [hex, Bool.not_true, Bool.and_false, Bool.false_eq_true, if_false]
      omega
    · rw [if_neg hex]
      cases hps : processSignal settings sig (insertOk sig.id) with
      | skip reason =>
        dsimp only
        rw [pendCount_cons, pendCount_cons]
        omega
      | insertFailed =>
        dsimp only
        rw [pendCount_cons, pendCount_cons]
        omega
      | exec o p =>
        have hid := (processSignal_exec_ids settings sig (insertOk sig.id) o p hps).1
        dsimp only
        rw [ordCount_cons, pendCount_cons, pendCount_cons]
        simp only [Bool.not_true, Bool.and_false, Bool.false_eq_true, if_false, hid]
        have hnex : (!sig.executed) = true := by
          simp [Bool.eq_false_iff.2 hex]
        rw [hnex]
        cases hids : (sig.id == s) <;> simp [hids] <;> omega


lemma executePendingSignalsUser_cases (settings : TradingSettings) (env : Env)
    (signals : List Signal) :
    executePendingSignalsUser settings env signals
        = runSignals settings env.insertOk signals
    ∨ ∃ reason, executePendingSignalsUser settings env signals
        = ⟨signals, [], [], [.user settings.user_id reason]⟩ := by
  unfold executePendingSignalsUser
  by_cases h1 : isWithinTradingHours env.now settings.trading_hours_start
      settings.trading_hours_end = true
  · rw [if_neg (by simpa using h1)]
    dsimp only
    by_cases h2 : env.todaysTrades ≥ max 1 (min 1000
        (if settings.max_daily_trades = 0 then 10 else settings.max_daily_trades))
    · rw [if_pos h2]
      exact Or.inr ⟨_, rfl⟩
    · rw [if_neg h2]
      by_cases h3 : dailyPnL env.todaysFilledOrders
          ≤ -(max 0 (min 1000000 (jsOr settings.max_daily_loss 1000)))
      · rw [if_pos h3]
        exact Or.inr ⟨_, rfl⟩
      · rw [if_neg h3]
        exact Or.inl rfl
  · rw [if_pos h1]
    exact Or.inr ⟨_, rfl⟩

lemma passResult_count_le (settings : TradingSettings) (env : Env)
    (signals : List Signal) (s : ℕ) :
    ordCount s (executePendingSignalsUser settings env signals).orders
      + pendCount s (executePendingSignalsUser settings env signals).signals
    ≤ pendCount s signals := by
  rcases executePendingSignalsUser_cases settings env signals with h | ⟨reason, h⟩
  · rw [h]
    exact runSignals_count_le settings env.insertOk s signals
  · rw [h]
    simp [ordCount]

/-- C1: the pass consumes each signal at most once.  First conjunct: if a
signal id occurs at most once in the table (ids are primary keys), then
two consecutive `execute-pending-signals` passes — the second running
over the signal table the first left behind, each with its own clock,
query results and order-insert outcomes — create at most one order for
that signal in total.  Second conjunct: a failed order insert for a
pending signal leaves that signal unmarked and adds no order, no
position and no skip record for it, while the remaining signals are
processed exactly as before. -/
theorem atMostOneOrderPerSignal :
    (∀ (settings : TradingSettings) (env1 env2 : Env) (signals : List Signal) (s : ℕ),
      idCount s signals ≤ 1 →
      ordCount s (executePendingSignalsUser settings env1 signals).orders
        + ordCount s (executePendingSignalsUser settings env2
            (executePendingSignalsUser settings env1 signals).signals).orders
      ≤ 1)
    ∧ (∀ (settings : TradingSettings) (insertOk : ℕ → Bool) (sig : Signal)
        (rest : List Signal),
        sig.executed = false → insertOk sig.id = false →
        ¬ sig.price_at_signal ≤ 0 →
        ¬ calculatePositionSize settings sig.rule sig.price_at_signal ≤ 0 →
        runSignals settings insertOk (sig :: rest)
          = { runSignals settings insertOk rest with
              signals := sig :: (runSignals settings insertOk rest).signals }) := by
  constructor
  · intro settings env1 env2 signals s hone
    have h0 : pendCount s signals ≤ 1 :=
      le_trans (pendCount_le_idCount s signals) hone
    have h1 := passResult_count_le settings env1 signals s
    have h2 := passResult_count_le settings env2
      (executePendingSignalsUser settings env1 signals).signals s
    omega
  · intro settings insertOk sig rest hex hfail hpr hqty
    have hcons : runSignals settings insertOk (sig :: rest)
        = stepSignal settings insertOk sig (runSignals settings insertOk rest) :=
      List.foldr_cons rest
    rw [hcons]
    unfold stepSignal
    rw [if_neg (by simp [hex])]
    have hps : processSignal settings sig (insertOk sig.id) = .insertFailed := by
      unfold processSignal
      rw [if_neg hpr, if_neg hqty, if_neg (by simp [hfail])]
    rw [hps]

/-- C1 witness: a concrete one-signal table processed by two passes. -/
theorem atMostOneOrderPerSignal_witness :
    ordCount 3 (executePendingSignalsUser
        ⟨"u", 10, 1000, 10000, 34200, 57600, none⟩ ⟨40000, 0, [], fun _ => true⟩
        [⟨3, "AAPL", "bb_breakout_up", 100, false, ⟨1, "s", none, none, none, 5, 10000⟩⟩]).orders
      + ordCount 3 (executePendingSignalsUser
          ⟨"u", 10, 1000, 10000, 34200, 57600, none⟩ ⟨41000, 1, [], fun _ => true⟩
          (executePendingSignalsUser
            ⟨"u", 10, 1000, 10000, 34200, 57600, none⟩ ⟨40000, 0, [], fun _ => true⟩
            [⟨3, "AAPL", "bb_breakout_up", 100, false,
              ⟨1, "s", none, none, none, 5, 10000⟩⟩]).signals).orders
    ≤ 1 :=
  atMostOneOrderPerSignal.1 ⟨"u", 10, 1000, 10000, 34200, 57600, none⟩
    ⟨40000, 0, [], fun _ => true⟩ ⟨41000, 1, [], fun _ => true⟩
    [⟨3, "AAPL", "bb_breakout_up", 100, false, ⟨1, "s", none, none, none, 5, 10000⟩⟩]
    3 (by decide)

/-- C9 counterexample: with trading hours 09:30:00-16:00:00 (34200-57600
seconds), a clock reading of exactly the end of the window, one pending
executable signal, and clean gates, the pass still creates an order —
the claim says that at exactly `tradingHoursEnd` no signal is executed. -/
theorem tradingHours_claim_counterexample :
    (⟨57600, 0, [], fun _ => true⟩ : Env).now
        = (⟨"u", 10, 1000, 10000, 34200, 57600, none⟩ : TradingSettings).trading_hours_end
    ∧ (executePendingSignalsUser ⟨"u", 10, 1000, 10000, 34200, 57600, none⟩
        ⟨57600, 0, [], fun _ => true⟩
        [⟨3, "AAPL", "bb_breakout_up", 100, false,
          ⟨1, "s", none, none, none, 5, 10000⟩⟩]).orders.length = 1 := by
  constructor
  · rfl
  · norm_num [executePendingSignalsUser, isWithinTradingHours, dailyPnL, runSignals,
      stepSignal, processSignal, calculatePositionSize, jsOr, List.foldr]

lemma pass_skips_outside_hours (settings : TradingSettings) (env : Env)
    (signals : List Signal)
    (h : isWithinTradingHours env.now settings.trading_hours_start
        settings.trading_hours_end = false) :
    executePendingSignalsUser settings env signals
      = ⟨signals, [], [], [.user settings.user_id "Outside trading hours"]⟩ := by
  unfold executePendingSignalsUser
  rw [if_pos (by simp [h])]

/-- C9 amended: the trading-hours window is the closed interval
`[tradingHoursStart, tradingHoursEnd]` — the within-hours test succeeds
exactly when `start ≤ now ≤ end` (so the user is skipped with reason
"Outside trading hours" strictly before the start or strictly after the
end, but at exactly `tradingHoursEnd` the user is still processed), and
whenever the test fails the pass records exactly that one skip and
touches nothing. -/
theorem tradingHours_gate_amended :
    (∀ now startTime endTime : ℕ,
      isWithinTradingHours now startTime endTime = true
        ↔ startTime ≤ now ∧ now ≤ endTime)
    ∧ (∀ (settings : TradingSettings) (env : Env) (signals : List Signal),
        isWithinTradingHours env.now settings.trading_hours_start
            settings.trading_hours_end = false →
        executePendingSignalsUser settings env signals
          = ⟨signals, [], [], [.user settings.user_id "Outside trading hours"]⟩) := by
  constructor
  · intro now startTime endTime
    simp [isWithinTradingHours]
  · exact pass_skips_outside_hours

/-- C9 amended witness: a clock reading after the end of the window is
skipped with the outside-trading-hours reason. -/
theorem tradingHours_gate_amended_witness :
    executePendingSignalsUser ⟨"u", 10, 1000, 10000, 34200, 57600, none⟩
        ⟨60000, 0, [], fun _ => true⟩
        [⟨3, "AAPL", "bb_breakout_up", 100, false, ⟨1, "s", none, none, none, 5, 10000⟩⟩]
      = ⟨[⟨3, "AAPL", "bb_breakout_up", 100, false, ⟨1, "s", none, none, none, 5, 10000⟩⟩],
          [], [], [.user "u" "Outside trading hours"]⟩ :=
  tradingHours_gate_amended.2 ⟨"u", 10, 1000, 10000, 34200, 57600, none⟩
    ⟨60000, 0, [], fun _ => true⟩
    [⟨3, "AAPL", "bb_breakout_up", 100, false, ⟨1, "s", none, none, none, 5, 10000⟩⟩]
    (by decide)

/-- C3 counterexample: a user whose stored `maxDailyTrades` is 0 and who
has one order already created today satisfies the claim`s antecedent
(todaysTrades = 1 is not strictly less than the claimed clamp
`max 1 (min 1000 0) = 1`), yet the pass still executes a pending signal,
because the source first applies the JS falsy default
`max_daily_trades || 10`. -/
theorem maxDailyTrades_claim_counterexample :
    max 1 (min 1000 (⟨"u", 0, 1000, 10000, 0, 86400, none⟩
        : TradingSettings).max_daily_trades)
      ≤ (⟨40000, 1, [], fun _ => true⟩ : Env).todaysTrades
    ∧ (executePendingSignalsUser ⟨"u", 0, 1000, 10000, 0, 86400, none⟩
        ⟨40000, 1, [], fun _ => true⟩
        [⟨3, "AAPL", "bb_breakout_up", 100, false,
          ⟨1, "s", none, none, none, 5, 10000⟩⟩]).orders.length = 1 := by
  constructor
  · decide
  · norm_num [executePendingSignalsUser, isWithinTradingHours, dailyPnL, runSignals,
      stepSignal, processSignal, calculatePositionSize, jsOr, List.foldr]

/-- C3 amended: the daily-trade threshold is `maxDailyTrades`, defaulted
to 10 when stored as 0 (JS falsy default) and clamped to [1, 1000].  When
the count of orders created today reaches it, the pass creates no order
and no position and leaves the signal table unchanged; if the user is
moreover within trading hours, the recorded skip is exactly the
user-level "Max daily trades reached" record.  In particular a user with
`maxDailyTrades = 1` and one order already created today never executes
a signal in that pass, regardless of how many signals are pending. -/
theorem maxDailyTrades_gate_amended :
    ∀ (settings : TradingSettings) (env : Env) (signals : List Signal),
      env.todaysTrades ≥ max 1 (min 1000
          (if settings.max_daily_trades = 0 then 10 else settings.max_daily_trades)) →
      ((executePendingSignalsUser settings env signals).orders = []
        ∧ (executePendingSignalsUser settings env signals).positions = []
        ∧ (executePendingSignalsUser settings env signals).signals = signals)
      ∧ (isWithinTradingHours env.now settings.trading_hours_start
            settings.trading_hours_end = true →
          executePendingSignalsUser settings env signals
            = ⟨signals, [], [], [.user settings.user_id "Max daily trades reached"]⟩) := by
  intro settings env signals hcount
  have hskip : isWithinTradingHours env.now settings.trading_hours_start
        settings.trading_hours_end = true →
      executePendingSignalsUser settings env signals
        = ⟨signals, [], [], [.user settings.user_id "Max daily trades reached"]⟩ := by
    intro hin
    unfold executePendingSignalsUser
    rw [if_neg (by simpa using hin)]
    dsimp only
    rw [if_pos hcount]
  refine ⟨?_, hskip⟩
  by_cases hin : isWithinTradingHours env.now settings.trading_hours_start
      settings.trading_hours_end = true
  · rw [hskip hin]
    exact ⟨rfl, rfl, rfl⟩
  · rw [pass_skips_outside_hours settings env signals (by simpa using hin)]
    exact ⟨rfl, rfl, rfl⟩

/-- C3 amended witness: `maxDailyTrades = 1`, one order already created
today, one pending signal. -/
theorem maxDailyTrades_gate_amended_witness :
    ((executePendingSignalsUser ⟨"u", 1, 1000, 10000, 34200, 57600, none⟩
        ⟨40000, 1, [], fun _ => true⟩
        [⟨3, "AAPL", "bb_breakout_up", 100, false,
          ⟨1, "s", none, none, none, 5, 10000⟩⟩]).orders = []
      ∧ (executePendingSignalsUser ⟨"u", 1, 1000, 10000, 34200, 57600, none⟩
          ⟨40000, 1, [], fun _ => true⟩
          [⟨3, "AAPL", "bb_breakout_up", 100, false,
            ⟨1, "s", none, none, none, 5, 10000⟩⟩]).positions = []
      ∧ (executePendingSignalsUser ⟨"u", 1, 1000, 10000, 34200, 57600, none⟩
          ⟨40000, 1, [], fun _ => true⟩
          [⟨3, "AAPL", "bb_breakout_up", 100, false,
            ⟨1, "s", none, none, none, 5, 10000⟩⟩]).signals
        = [⟨3, "AAPL", "bb_breakout_up", 100, false,
            ⟨1, "s", none, none, none, 5, 10000⟩⟩])
    ∧ (isWithinTradingHours 40000 34200 57600 = true →
        executePendingSignalsUser ⟨"u", 1, 1000, 10000, 34200, 57600, none⟩
            ⟨40000, 1, [], fun _ => true⟩
            [⟨3, "AAPL", "bb_breakout_up", 100, false,
              ⟨1, "s", none, none, none, 5, 10000⟩⟩]
          = ⟨[⟨3, "AAPL", "bb_breakout_up", 100, false,
              ⟨1, "s", none, none, none, 5, 10000⟩⟩],
              [], [], [.user "u" "Max daily trades reached"]⟩) :=
  maxDailyTrades_gate_amended ⟨"u", 1, 1000, 10000, 34200, 57600, none⟩
    ⟨40000, 1, [], fun _ => true⟩
    [⟨3, "AAPL", "bb_breakout_up", 100, false, ⟨1, "s", none, none, none, 5, 10000⟩⟩]
    (by decide)

/-! ### Claim C4: position sizing -/

/-- C4 counterexample: a rule with `maxPositionValue = 50` (below the
claimed lower clamp bound of 100) and `positionSizePercent = 100`, at
price 10: the code floors 50/10 and executes quantity 5, while the
claim`s formula clamps the value bound up to 100 and yields 10. -/
theorem positionSize_claim_counterexample :
    calculatePositionSize ⟨"u", 10, 1000, 10000, 34200, 57600, none⟩
        ⟨1, "s", none, none, none, 100, 50⟩ 10 100000 = 5
    ∧ claimPositionSize ⟨"u", 10, 1000, 10000, 34200, 57600, none⟩
        ⟨1, "s", none, none, none, 100, 50⟩ 10 100000 = 10
    ∧ (5 : ℤ) ≠ 10 := by
  refine ⟨?_, ?_, by decide⟩
  · norm_num [calculatePositionSize, jsOr]
  · norm_num [claimPositionSize, clampQ]

/-- C4 amended: the executed quantity is
`clamp(0, 1000000, floor(min(clamp(0, 1000000, maxPositionSize or 10000),
clamp(0, 1000000, maxPositionValue or 10000), accountValue x
clamp(0.1, 100, positionSizePercent or 5)/100) / price))` (`or` being the
JS falsy default); the order row of an executed signal carries exactly
`calculatePositionSize` of its rule and price; and a non-positive price
or a non-positive quantity skips only that signal with its recorded
reason while the remaining signals are processed unchanged. -/
theorem positionSize_amended :
    (∀ (settings : TradingSettings) (rule : SignalRule) (price accountValue : ℚ),
      calculatePositionSize settings rule price accountValue
        = codePositionSize settings rule price accountValue)
    ∧ (∀ (settings : TradingSettings) (sig : Signal) (ok : Bool) (o : Order)
        (p : PositionRec), processSignal settings sig ok = .exec o p →
        o.quantity = calculatePositionSize settings sig.rule sig.price_at_signal)
    ∧ (∀ (settings : TradingSettings) (insertOk : ℕ → Bool) (sig : Signal)
        (rest : List Signal), sig.executed = false → sig.price_at_signal ≤ 0 →
        runSignals settings insertOk (sig :: rest)
          = { runSignals settings insertOk rest with
              signals := sig :: (runSignals settings insertOk rest).signals
              skipped := .signal sig.id "Invalid price"
                :: (runSignals settings insertOk rest).skipped })
    ∧ (∀ (settings : TradingSettings) (insertOk : ℕ → Bool) (sig : Signal)
        (rest : List Signal), sig.executed = false →
        ¬ sig.price_at_signal ≤ 0 →
        calculatePositionSize settings sig.rule sig.price_at_signal ≤ 0 →
        runSignals settings insertOk (sig :: rest)
          = { runSignals settings insertOk rest with
              signals := sig :: (runSignals settings insertOk rest).signals
              skipped := .signal sig.id "Position size too small"
                :: (runSignals settings insertOk rest).skipped }) := by
  refine ⟨?_, ?_, ?_, ?_⟩
  · intro settings rule price accountValue
    unfold calculatePositionSize codePositionSize clampQ
    by_cases h1 : price ≤ 0
    · rw [if_pos h1, if_pos (Or.inl h1)]
    · rw [if_neg h1]
      by_cases h2 : accountValue ≤ 0
      · rw [if_pos h2, if_pos (Or.inr h2)]
      · rw [if_neg h2, if_neg (by push_neg; push_neg at h1 h2; exact ⟨h1, h2⟩)]
  · intro settings sig ok o p h
    exact (processSignal_exec_ids settings sig ok o p h).2
  · intro settings insertOk sig rest hex hpr
    have hcons : runSignals settings insertOk (sig :: rest)
        = stepSignal settings insertOk sig (runSignals settings insertOk rest) :=
      List.foldr_cons rest
    rw [hcons]
    unfold stepSignal
    rw [if_neg (by simp [hex])]
    have hps : processSignal settings sig (insertOk sig.id) = .skip "Invalid price" := by
      unfold processSignal
      rw [if_pos hpr]
    rw [hps]
  · intro settings insertOk sig rest hex hpr hqty
    have hcons : runSignals settings insertOk (sig :: rest)
        = stepSignal settings insertOk sig (runSignals settings insertOk rest) :=
      List.foldr_cons rest
    rw [hcons]
    unfold stepSignal
    rw [if_neg (by simp [hex])]
    have hps : processSignal settings sig (insertOk sig.id)
        = .skip "Position size too small" := by
      unfold processSignal
      rw [if_neg hpr, if_pos hqty]
    rw [hps]

/-- C4 amended witness: the formula at the counterexample`s inputs, and
skip isolation for a zero-priced signal in front of an empty tail. -/
theorem positionSize_amended_witness :
    calculatePositionSize ⟨"u", 10, 1000, 10000, 34200, 57600, none⟩
        ⟨1, "s", none, none, none, 100, 50⟩ 10 100000
      = codePositionSize ⟨"u", 10, 1000, 10000, 34200, 57600, none⟩
          ⟨1, "s", none, none, none, 100, 50⟩ 10 100000
    ∧ runSignals ⟨"u", 10, 1000, 10000, 34200, 57600, none⟩ (fun _ => true)
        [⟨4, "AAPL", "bb_breakout_up", 0, false, ⟨1, "s", none, none, none, 5, 10000⟩⟩]
      = { runSignals ⟨"u", 10, 1000, 10000, 34200, 57600, none⟩ (fun _ => true) [] with
          signals := [⟨4, "AAPL", "bb_breakout_up", 0, false,
            ⟨1, "s", none, none, none, 5, 10000⟩⟩]
          skipped := [.signal 4 "Invalid price"] } :=
  ⟨positionSize_amended.1 ⟨"u", 10, 1000, 10000, 34200, 57600, none⟩
      ⟨1, "s", none, none, none, 100, 50⟩ 10 100000,
   positionSize_amended.2.2.1 ⟨"u", 10, 1000, 10000, 34200, 57600, none⟩
      (fun _ => true)
      ⟨4, "AAPL", "bb_breakout_up", 0, false, ⟨1, "s", none, none, none, 5, 10000⟩⟩
      [] rfl (by norm_num)⟩

/-! ### Claim C5: order side and protective prices -/

/-- C5 counterexample: a buy signal at price 100 whose rule stores
`stopLossPercent = 80`: the claim`s formula `price * (1 - sign*80/100)`
gives 20, but the code clamps the percent to [0.1, 50] first and the
executed order carries stopLossPrice 50. -/
theorem stopLoss_claim_counterexample :
    (match processSignal ⟨"u", 10, 1000, 10000, 34200, 57600, none⟩
        ⟨7, "AAPL", "bb_breakout_up", 100, false,
          ⟨2, "s", none, some 80, none, 5, 10000⟩⟩ true with
      | .exec o _ => some (o.side, o.stop_loss_price)
      | _ => none) = some ("buy", some 50)
    ∧ (100 : ℚ) * (1 - 1 * 80 / 100) = 20
    ∧ (50 : ℚ) ≠ 20 := by
  refine ⟨?_, by norm_num, by norm_num⟩
  norm_num [processSignal, calculatePositionSize, jsOr, orderFor, orderSide,
    stopLossPriceFor, takeProfitPriceFor, jsTruthy, clampQ, sideSign]

/-- C5 amended: for every executed order, the side is buy exactly when
the signal type is one of the three upward types (sell otherwise), and
the protective prices follow the claim`s formulas with the percents first
clamped — `stopLossPrice = price * (1 - sign * clamp(0.1, 50, stopLossPercent)/100)`
and `takeProfitPrice = price * (1 + sign * clamp(0.1, 100, takeProfitPercent)/100)`,
each percent independently optional (absent when null or 0); in
particular at price 100 with stopLossPercent 20 the stop-loss price is 80
for a buy and 120 for a sell. -/
theorem orderSidePrices_amended :
    (∀ (settings : TradingSettings) (sig : Signal) (ok : Bool) (o : Order)
        (p : PositionRec), processSignal settings sig ok = .exec o p →
      (o.side = "buy"
          ↔ sig.signal_type ∈ ["bb_breakout_up", "bb_mean_reversion_up", "vwap_cross_up"])
        ∧ (o.side = "buy" ∨ o.side = "sell")
        ∧ o.stop_loss_price = (jsTruthy sig.rule.stop_loss_percent).map
            (fun q => sig.price_at_signal * (1 - sideSign o.side * clampQ 0.1 50 q / 100))
        ∧ o.take_profit_price = (jsTruthy sig.rule.take_profit_percent).map
            (fun q => sig.price_at_signal * (1 + sideSign o.side * clampQ 0.1 100 q / 100)))
    ∧ stopLossPriceFor 100 (orderSide "bb_breakout_up") (some 20) = some 80
    ∧ stopLossPriceFor 100 (orderSide "bb_breakout_down") (some 20) = some 120 := by
  refine ⟨?_, ?_, ?_⟩
  · intro settings sig ok o p h
    obtain ⟨rfl, -, -⟩ := processSignal_exec settings sig ok o p h
    have hside : (orderFor sig
        (calculatePositionSize settings sig.rule sig.price_at_signal)).side
        = orderSide sig.signal_type := rfl
    refine ⟨?_, ?_, ?_, ?_⟩
    · rw [hside]
      unfold orderSide
      by_cases hmem : sig.signal_type
          ∈ ["bb_breakout_up", "bb_mean_reversion_up", "vwap_cross_up"]
      · simp [hmem]
      · simp [hmem]
    · rw [hside]
      unfold orderSide
      by_cases hmem : sig.signal_type
          ∈ ["bb_breakout_up", "bb_mean_reversion_up", "vwap_cross_up"]
      · simp [hmem]
      · simp [hmem]
    · rw [hside]
      show stopLossPriceFor sig.price_at_signal (orderSide sig.signal_type)
          sig.rule.stop_loss_percent = _
      unfold stopLossPriceFor
      rw [Option.map_map]
      rfl
    · rw [hside]
      show takeProfitPriceFor sig.price_at_signal (orderSide sig.signal_type)
          sig.rule.take_profit_percent = _
      unfold takeProfitPriceFor
      rw [Option.map_map]
      rfl
  · have h : orderSide "bb_breakout_up" = "buy" := rfl
    rw [h]
    norm_num [stopLossPriceFor, jsTruthy, clampQ, sideSign]
  · have h : orderSide "bb_breakout_down" = "sell" := rfl
    rw [h]
    have h2 : sideSign "sell" = -1 := rfl
    norm_num [stopLossPriceFor, jsTruthy, clampQ, h2]

/-- C5 amended witness: the executed order of a concrete sell-side signal
(type `bb_breakout_down`, price 100, stopLossPercent 20). -/
theorem orderSidePrices_amended_witness :
    ((orderFor ⟨8, "AAPL", "bb_breakout_down", 100, false,
          ⟨2, "s", none, some 20, none, 5, 10000⟩⟩
        (calculatePositionSize ⟨"u", 10, 1000, 10000, 34200, 57600, none⟩
          ⟨2, "s", none, some 20, none, 5, 10000⟩ 100)).side = "buy"
        ↔ ("bb_breakout_down" : String)
            ∈ ["bb_breakout_up", "bb_mean_reversion_up", "vwap_cross_up"])
    ∧ ((orderFor ⟨8, "AAPL", "bb_breakout_down", 100, false,
          ⟨2, "s", none, some 20, none, 5, 10000⟩⟩
        (calculatePositionSize ⟨"u", 10, 1000, 10000, 34200, 57600, none⟩
          ⟨2, "s", none, some 20, none, 5, 10000⟩ 100)).side = "buy"
        ∨ (orderFor ⟨8, "AAPL", "bb_breakout_down", 100, false,
            ⟨2, "s", none, some 20, none, 5, 10000⟩⟩
          (calculatePositionSize ⟨"u", 10, 1000, 10000, 34200, 57600, none⟩
            ⟨2, "s", none, some 20, none, 5, 10000⟩ 100)).side = "sell")
    ∧ (orderFor ⟨8, "AAPL", "bb_breakout_down", 100, false,
          ⟨2, "s", none, some 20, none, 5, 10000⟩⟩
        (calculatePositionSize ⟨"u", 10, 1000, 10000, 34200, 57600, none⟩
          ⟨2, "s", none, some 20, none, 5, 10000⟩ 100)).stop_loss_price
        = (jsTruthy (some 20)).map
            (fun q => (100 : ℚ) * (1 - sideSign (orderFor ⟨8, "AAPL", "bb_breakout_down",
                100, false, ⟨2, "s", none, some 20, none, 5, 10000⟩⟩
              (calculatePositionSize ⟨"u", 10, 1000, 10000, 34200, 57600, none⟩
                ⟨2, "s", none, some 20, none, 5, 10000⟩ 100)).side * clampQ 0.1 50 q / 100))
    ∧ (orderFor ⟨8, "AAPL", "bb_breakout_down", 100, false,
          ⟨2, "s", none, some 20, none, 5, 10000⟩⟩
        (calculatePositionSize ⟨"u", 10, 1000, 10000, 34200, 57600, none⟩
          ⟨2, "s", none, some 20, none, 5, 10000⟩ 100)).take_profit_price
        = (jsTruthy none).map
            (fun q => (100 : ℚ) * (1 + sideSign (orderFor ⟨8, "AAPL", "bb_breakout_down",
                100, false, ⟨2, "s", none, some 20, none, 5, 10000⟩⟩
              (calculatePositionSize ⟨"u", 10, 1000, 10000, 34200, 57600, none⟩
                ⟨2, "s", none, some 20, none, 5, 10000⟩ 100)).side * clampQ 0.1 100 q / 100)) :=
  orderSidePrices_amended.1 ⟨"u", 10, 1000, 10000, 34200, 57600, none⟩
    ⟨8, "AAPL", "bb_breakout_down", 100, false, ⟨2, "s", none, some 20, none, 5, 10000⟩⟩
    true _ _
    (by
      unfold processSignal
      rw [if_neg (by norm_num), if_neg (by norm_num [calculatePositionSize, jsOr]),
        if_pos rfl])

end MarketWatcher
